/-
Verification of the VinylVault core against its specification.

Shallow embedding of the two core modules:
  * `image_cache.py`  — the thread-safe LRU image cache (`LRUCache`) and the
    download/transcode service (`ImageCache`);
  * `random_algorithm.py` — the weighted random selection engine
    (`WeightCalculator`, `SelectionHistory`, `RandomAlgorithm`).

Modelling conventions:
  * Python dicts / `OrderedDict` become association lists.  The source keeps
    `cache_order` (an `OrderedDict` of keys in recency order) and `cache_data`
    (a dict key → entry) in lockstep under one lock; the embedding fuses them
    into a single recency-ordered association list (head = least recently
    used), which is exactly the information content of the pair.
  * Timestamps (`datetime.now()`) become integers (seconds); day counts,
    month and hour are passed explicitly in a `Clock`, mirroring the calls to
    `datetime.now()` in the source.
  * Python floats become rationals (ℚ); the transcendental functions
    `math.exp` / `math.log` are abstracted as parameters in a `MathEnv`,
    since no claim depends on their values.
  * SQLite tables become lists of records; `SELECT ... ORDER BY RANDOM()`
    becomes indexing by an externally supplied random number.
  * Exceptions become `Except` / `Option` results; a caught-and-logged
    exception becomes the corresponding fallback value.
-/
import Mathlib

namespace VinylVault

/-! ## image_cache.py : CacheEntry and LRUCache -/

/-- Embedding of the `CacheEntry` dataclass of `image_cache.py` (timestamps
as integer seconds). -/
structure CacheEntry where
  file_path : String
  original_url : String
  size_type : String
  file_size : Int
  created_at : Int
  last_accessed : Int
  access_count : Nat
  width : Nat
  height : Nat
  format : String := "WEBP"
  deriving DecidableEq, Repr

/-- Embedding of the `LRUCache` class state.  `cache` fuses the source's
`cache_order` (recency-ordered keys, head = least recently used) and
`cache_data` (key → entry dict) into one association list.  The `stats`
dict becomes four counters. -/
structure LRUCache where
  max_size_bytes : Int
  current_size_bytes : Int
  cache : List (String × CacheEntry)
  hits : Nat
  misses : Nat
  evictions : Nat
  total_requests : Nat
  deriving DecidableEq, Repr

namespace LRUCache

/-- Fresh cache, as built by `LRUCache.__init__`. -/
def init (max_size_bytes : Int) : LRUCache :=
  { max_size_bytes := max_size_bytes
    current_size_bytes := 0
    cache := []
    hits := 0
    misses := 0
    evictions := 0
    total_requests := 0 }

/-- Dict lookup `self.cache_data[key]` (`key in self.cache_data` is
`(lookup c key).isSome`). -/
def lookup (c : LRUCache) (key : String) : Option CacheEntry :=
  (c.cache.find? (fun p => p.1 == key)).map Prod.snd

/-- Deletion `del self.cache_data[key]; del self.cache_order[key]`. -/
def removeKey (l : List (String × CacheEntry)) (key : String) :
    List (String × CacheEntry) :=
  l.filter (fun p => p.1 != key)

/-- Embedding of `LRUCache.get`: `total_requests` is bumped on every call;
on a hit, bump `last_accessed` and `access_count`, move the key to the
most-recently-used end and count a hit; on a miss count a miss.  `now`
stands for `datetime.now()`. -/
def get (c : LRUCache) (now : Int) (key : String) :
    Option CacheEntry × LRUCache :=
  match c.lookup key with
  | some e =>
      let e2 := { e with last_accessed := now, access_count := e.access_count + 1 }
      (some e2,
        { c with
            cache := removeKey c.cache key ++ [(key, e2)]
            hits := c.hits + 1
            total_requests := c.total_requests + 1 })
  | none =>
      (none,
        { c with
            misses := c.misses + 1
            total_requests := c.total_requests + 1 })

/-- Embedding of `LRUCache._evict_lru`: drop the least-recently-used entry
(head of the recency list), decrement the running size, count an eviction.
(The `os.remove` of the backing file is part of the service-level state,
modelled in `ImageCacheState`.) -/
def evictLRU (c : LRUCache) : LRUCache :=
  match c.cache with
  | [] => c
  | (_, e) :: rest =>
      { c with
          cache := rest
          current_size_bytes := c.current_size_bytes - e.file_size
          evictions := c.evictions + 1 }

/-- Embedding of the eviction loop of `LRUCache.put`
(`while current_size + new_size > max_size and self.cache_order:`).
Each iteration removes one entry, so the length of the cache bounds the
number of iterations; the fuel argument makes the recursion structural and
is initialised to that length in `evictWhile`. -/
def evictWhileFuel : Nat → LRUCache → Int → LRUCache
  | 0, c, _ => c
  | fuel + 1, c, sz =>
      if c.current_size_bytes + sz > c.max_size_bytes ∧ c.cache ≠ [] then
        evictWhileFuel fuel c.evictLRU sz
      else c

/-- The eviction loop of `LRUCache.put` with its fuel instantiated. -/
def evictWhile (c : LRUCache) (sz : Int) : LRUCache :=
  evictWhileFuel c.cache.length c sz

/-- First step of `LRUCache.put`: if the key already exists, remove the old
entry and decrement the running size. -/
def putStage1 (c : LRUCache) (key : String) : LRUCache :=
  match c.lookup key with
  | some old =>
      { c with
          cache := removeKey c.cache key
          current_size_bytes := c.current_size_bytes - old.file_size }
  | none => c

/-- Embedding of `LRUCache.put`, in source order: (1) if the key exists,
remove the old entry and decrement the running size (`putStage1`); (2) run
the eviction loop; (3) reject entries larger than the whole budget; (4)
append the new entry at the most-recently-used end and increment the
running size. -/
def put (c : LRUCache) (key : String) (entry : CacheEntry) :
    Bool × LRUCache :=
  let c := putStage1 c key
  let c := evictWhile c entry.file_size
  if entry.file_size > c.max_size_bytes then
    (false, c)
  else
    (true,
      { c with
          cache := c.cache ++ [(key, entry)]
          current_size_bytes := c.current_size_bytes + entry.file_size })

/-- Embedding of `LRUCache.remove`. -/
def remove (c : LRUCache) (key : String) : Bool × LRUCache :=
  match c.lookup key with
  | some e =>
      (true,
        { c with
            cache := removeKey c.cache key
            current_size_bytes := c.current_size_bytes - e.file_size })
  | none => (false, c)

/-- Embedding of `LRUCache.clear`. -/
def clear (c : LRUCache) : LRUCache :=
  { c with
      cache := []
      current_size_bytes := 0
      hits := 0
      misses := 0
      evictions := 0
      total_requests := 0 }

/-- Keys in recency order (the source's `cache_order`). -/
def keys (c : LRUCache) : List String := c.cache.map Prod.fst

/-- Sum of the stored entries' `file_size` fields. -/
def storedSize (l : List (String × CacheEntry)) : Int :=
  (l.map (fun p => p.2.file_size)).sum

/-- Size-accounting invariant of the spec:
`current_size_bytes == sum(entry.byte_size for entry in cache)`. -/
def sizeInv (c : LRUCache) : Prop :=
  c.current_size_bytes = storedSize c.cache

/-- Well-formedness: distinct keys (the source stores entries in dicts) plus
the size-accounting invariant. -/
def WF (c : LRUCache) : Prop :=
  (c.keys).Nodup ∧ sizeInv c

end LRUCache

/-- One externally triggerable `LRUCache` operation, for stating properties
over arbitrary operation sequences (`evict` is the internal `_evict_lru`). -/
inductive CacheOp where
  | get (now : Int) (key : String)
  | put (key : String) (entry : CacheEntry)
  | remove (key : String)
  | evict
  | clear
  deriving Repr

/-- Apply one operation to the cache state (result values dropped). -/
def applyOp (c : LRUCache) : CacheOp → LRUCache
  | .get now key => (c.get now key).2
  | .put key entry => (c.put key entry).2
  | .remove key => (c.remove key).2
  | .evict => c.evictLRU
  | .clear => c.clear

/-- Apply a sequence of operations. -/
def applyOps (c : LRUCache) (ops : List CacheOp) : LRUCache :=
  ops.foldl applyOp c

/-! ## image_cache.py : MemoryOptimizedProcessor and ImageCache service -/

/-- Python `s.startswith(pre)` on the underlying characters. -/
def pyStartsWith (s pre : String) : Bool :=
  pre.data.isPrefixOf s.data

namespace MemoryOptimizedProcessor

/-- `MemoryOptimizedProcessor.THUMBNAIL_SIZE`. -/
def THUMBNAIL_SIZE : Nat × Nat := (150, 150)

/-- `MemoryOptimizedProcessor.DETAIL_SIZE`. -/
def DETAIL_SIZE : Nat × Nat := (600, 600)

end MemoryOptimizedProcessor

/-- Raw downloaded bytes, abstracted: their length, whether PIL can decode
them, and an abstract identity of the pixel content. -/
structure RawImage where
  len : Nat
  valid : Bool
  content : Nat
  deriving DecidableEq, Repr

/-- Result of `MemoryOptimizedProcessor.process_image`: the re-encoded WebP
bytes (their length) and the dimensions read back from them. -/
structure ProcessedImage where
  len : Nat
  width : Nat
  height : Nat
  deriving DecidableEq, Repr

/-- The PIL resize/re-encode pipeline, abstracted as a function from raw
pixel content and target box to processed output (no claim depends on the
pixel transformation itself). -/
structure ImgEnv where
  proc : RawImage → Nat × Nat → ProcessedImage

/-- Embedding of `MemoryOptimizedProcessor.process_image`: PIL decoding
failure raises `ImageProcessingError`; otherwise the pipeline produces the
processed WebP bytes. -/
def processImage (env : ImgEnv) (data : RawImage) (target : Nat × Nat) :
    Except String ProcessedImage :=
  if data.valid then .ok (env.proc data target)
  else .error "Failed to process image"

/-- One HTTP response for an image URL, as the `requests` session delivers
it: `network_error` collects timeouts / connection failures / redirect
exhaustion (every `requests.exceptions.RequestException`). -/
structure Response where
  network_error : Bool
  status : Nat
  content_type : String
  body : RawImage
  deriving DecidableEq, Repr

/-- Embedding of `ImageCache._download_image`: a `RequestException` or a
`raise_for_status` failure (status ≥ 400), a content type not starting with
`image/`, or a body over the 10 MB cap all raise; otherwise the raw bytes
are returned.  (`requests` resolves redirects internally, so the status
seen here is the final one.) -/
def downloadImage (resp : Response) : Except String RawImage :=
  if resp.network_error then .error "Download failed"
  else if 400 ≤ resp.status then .error "Download failed"
  else if !pyStartsWith (resp.content_type) "image/" then
    .error "Invalid content type"
  else if resp.body.len > 10 * 1024 * 1024 then .error "Image too large"
  else .ok resp.body

/-- Embedding of `ImageCache._generate_cache_key`: the SHA-256 of
`f"{url}:{size_type}"` is modelled by its (injective) preimage string. -/
def generateCacheKey (url size_type : String) : String :=
  url ++ ":" ++ size_type

/-- Embedding of `ImageCache._get_cache_file_path`:
`self.cache_dir / size_type / f"{cache_key}.webp"`. -/
def cacheFilePath (cache_dir cache_key size_type : String) : String :=
  cache_dir ++ "/" ++ size_type ++ "/" ++ cache_key ++ ".webp"

/-- Target box chosen in `ImageCache._process_and_cache_image`:
`THUMBNAIL_SIZE if size_type == 'thumbnails' else DETAIL_SIZE`. -/
def targetSize (size_type : String) : Nat × Nat :=
  if size_type == "thumbnails" then MemoryOptimizedProcessor.THUMBNAIL_SIZE
  else MemoryOptimizedProcessor.DETAIL_SIZE

/-- Service-level state of `ImageCache`: the in-memory LRU structure plus
the set of files present under the cache directory (the durable SQLite
metadata mirror is not consulted by the claims and is left out). -/
structure ImageCacheState where
  cache_dir : String
  lru : LRUCache
  files : List String
  deriving Repr

/-- `path.unlink()` guarded by `path.exists()`. -/
def unlinkFile (fs : List String) (path : String) : List String :=
  fs.filter (fun p => p != path)

/-- `open(path, 'wb').write(...)`: the path becomes present. -/
def writeFile (fs : List String) (path : String) : List String :=
  if fs.contains path then fs else fs ++ [path]

/-- The `while` loop of `LRUCache.put` as run by the service: `_evict_lru`
also removes each evicted entry's backing file from disk. -/
def evictWhileFuelFS :
    Nat → LRUCache → List String → Int → LRUCache × List String
  | 0, c, fs, _ => (c, fs)
  | fuel + 1, c, fs, sz =>
      if c.current_size_bytes + sz > c.max_size_bytes ∧ c.cache ≠ [] then
        let fs :=
          match c.cache with
          | [] => fs
          | (_, e) :: _ => unlinkFile fs e.file_path
        evictWhileFuelFS fuel c.evictLRU fs sz
      else (c, fs)

/-- `LRUCache.put` as run by the service, threading the on-disk file set
through the eviction loop (the same-key removal step does not unlink the
old file; only `_evict_lru` does). -/
def lruPutFS (c : LRUCache) (fs : List String) (key : String)
    (entry : CacheEntry) : Bool × LRUCache × List String :=
  let c := LRUCache.putStage1 c key
  let (c, fs) := evictWhileFuelFS c.cache.length c fs entry.file_size
  if entry.file_size > c.max_size_bytes then
    (false, c, fs)
  else
    (true,
      { c with
          cache := c.cache ++ [(key, entry)]
          current_size_bytes := c.current_size_bytes + entry.file_size },
      fs)

/-- Embedding of `ImageCache._process_and_cache_image`, in source order:
download, choose the target box, process, write the file, build the
`CacheEntry`, insert into the LRU cache (unlinking the just-written file
when the insert is rejected); any raised error lands in the `except`
branch, which unlinks the file for this url/size if present and returns
`None`. -/
def processAndCacheImage (env : ImgEnv) (st : ImageCacheState)
    (url size_type : String) (resp : Response) (now : Int) :
    Option CacheEntry × ImageCacheState :=
  let cache_key := generateCacheKey url size_type
  let file_path := cacheFilePath st.cache_dir cache_key size_type
  match downloadImage resp with
  | .error _ => (none, { st with files := unlinkFile st.files file_path })
  | .ok image_data =>
      match processImage env image_data (targetSize size_type) with
      | .error _ => (none, { st with files := unlinkFile st.files file_path })
      | .ok processed =>
          let files := writeFile st.files file_path
          let entry : CacheEntry :=
            { file_path := file_path
              original_url := url
              size_type := size_type
              file_size := (processed.len : Int)
              created_at := now
              last_accessed := now
              access_count := 1
              width := processed.width
              height := processed.height
              format := "WEBP" }
          match lruPutFS st.lru files cache_key entry with
          | (true, lru, files) => (some entry, { st with lru := lru, files := files })
          | (false, lru, files) =>
              (none, { st with lru := lru, files := unlinkFile files file_path })

/-- Embedding of `ImageCache.get_image`: empty URL short-circuits; a cache
hit whose file still exists returns the cached path; otherwise the image is
downloaded, processed and cached.  All failures surface as `none`, never as
an exception. -/
def getImage (env : ImgEnv) (st : ImageCacheState) (url size_type : String)
    (resp : Response) (now : Int) : Option String × ImageCacheState :=
  if url == "" then (none, st)
  else
    let cache_key := generateCacheKey url size_type
    let (found, lru) := st.lru.get now cache_key
    let st := { st with lru := lru }
    match found with
    | some entry =>
        if st.files.contains entry.file_path then (some entry.file_path, st)
        else
          let (entry, st) := processAndCacheImage env st url size_type resp now
          (entry.map (fun e => e.file_path), st)
    | none =>
        let (entry, st) := processAndCacheImage env st url size_type resp now
        (entry.map (fun e => e.file_path), st)

/-! ## random_algorithm.py : configuration, weight calculator, history -/

/-- Transcendental functions of the source's `math` module, abstracted: no
claim depends on the values of `math.exp` / `math.log`. -/
structure MathEnv where
  exp : ℚ → ℚ
  log : ℚ → ℚ

/-- Embedding of the `AlgorithmConfig` dataclass with its defaults. -/
structure AlgorithmConfig where
  rating_weight : ℚ := 2
  play_count_weight : ℚ := 3 / 2
  recency_weight : ℚ := 4 / 5
  genre_diversity_weight : ℚ := 6 / 5
  cache_size : Nat := 20
  cache_refresh_threshold : Nat := 5
  max_history_size : Nat := 50
  min_time_between_repeats_hours : Int := 24
  genre_cooldown_selections : Nat := 3
  max_same_artist_streak : Nat := 2
  feedback_learning_rate : ℚ := 1 / 10
  seasonal_adjustment : Bool := true
  time_based_preferences : Bool := true
  max_computation_time_ms : Nat := 50
  precompute_weights : Bool := true
  batch_cache_refresh : Bool := true

/-- Instants read from `datetime.now()`: the timestamp in seconds, the same
instant as a day number (for `.days` differences), and its month and hour
fields. -/
structure Clock where
  sec : Int
  days : Int
  month : Nat
  hour : Nat

/-- One row of the collaborator's `albums` table, with `genres`/`styles`
already JSON-decoded; `date_added = none` models an unparseable timestamp
string (the `except` branch of `calculate_recency_weight`), `last_played =
none` models NULL.  Dates are day numbers. -/
structure Album where
  id : Int
  title : String
  artist : String
  year : Int
  cover_url : String
  genres : List String
  styles : List String
  rating : Option Int
  play_count : Option Int
  date_added : Option Int
  last_played : Option Int
  deriving DecidableEq

/-- Python `max(a, b)`: the first argument wins ties. -/
def pyMax (a b : ℚ) : ℚ := if a ≥ b then a else b

/-- Python `s.lower()` (per character, as for the ASCII genre names used by
the boost tables). -/
def pyLower (s : String) : String := String.mk (s.data.map Char.toLower)

/-- Python `needle in hay` on strings: substring containment. -/
def strContains (hay needle : String) : Bool :=
  needle.data.isEmpty || hay.data.tails.any (fun t => needle.data.isPrefixOf t)

namespace WeightCalculator

/-- Embedding of `WeightCalculator.calculate_rating_weight`: `None` or a
nonpositive rating is neutral 0.5; otherwise `(rating/5)**2 *
config.rating_weight + 0.1`. -/
def calculate_rating_weight (cfg : AlgorithmConfig) (rating : Option Int) : ℚ :=
  match rating with
  | none => 1 / 2
  | some r =>
      if r ≤ 0 then 1 / 2
      else ((r : ℚ) / 5) ^ 2 * cfg.rating_weight + 1 / 10

/-- Embedding of `WeightCalculator.calculate_play_count_weight`. -/
def calculate_play_count_weight (env : MathEnv) (cfg : AlgorithmConfig)
    (play_count : Option Int) (avg_play_count : ℚ) : ℚ :=
  let play_count := play_count.getD 0
  if avg_play_count ≤ 0 then 1
  else
    let normalized := (play_count : ℚ) / avg_play_count
    env.log (normalized + 1) * cfg.play_count_weight + 1 / 10

/-- Embedding of `WeightCalculator.calculate_recency_weight`; the
`except (ValueError, TypeError)` branch (unparseable `date_added`) is the
`none` case. -/
def calculate_recency_weight (env : MathEnv) (cfg : AlgorithmConfig)
    (clock : Clock) (date_added last_played : Option Int) : ℚ :=
  match date_added with
  | none => 1
  | some added =>
      let days_since_added := clock.days - added
      let recency_factor := env.exp (-(days_since_added : ℚ) / 365)
      let play_recency_factor : ℚ :=
        match last_played with
        | some lp => env.log (((clock.days - lp : Int) : ℚ) + 1) / 10
        | none => 2
      (recency_factor + play_recency_factor) * cfg.recency_weight

/-- Embedding of `WeightCalculator.calculate_genre_diversity_weight`. -/
def calculate_genre_diversity_weight (cfg : AlgorithmConfig)
    (genres recent_genres : List String) : ℚ :=
  match genres with
  | [] => 1
  | primary_genre :: _ =>
      if primary_genre = "" then 1
      else
        let recent_count := recent_genres.count primary_genre
        if recent_count = 0 then 1 + cfg.genre_diversity_weight
        else pyMax (1 / 10) (1 / ((recent_count : ℚ) ^ 2))

/-- Embedding of `WeightCalculator.calculate_artist_diversity_weight`. -/
def calculate_artist_diversity_weight (artist : String)
    (recent_artists : List String) : ℚ :=
  if artist = "" then 1
  else
    let recent_count := recent_artists.count artist
    if recent_count = 0 then 1
    else pyMax (1 / 20) (1 / ((recent_count : ℚ) ^ 3))

/-- The `seasonal_boosts` table of `apply_seasonal_adjustment`. -/
def seasonal_boosts : List (String × List Nat) :=
  [("christmas", [12, 1]), ("holiday", [12, 1]), ("jazz", [10, 11, 12]),
   ("classical", [10, 11, 12, 1, 2]), ("electronic", [6, 7, 8]),
   ("reggae", [6, 7, 8]), ("folk", [9, 10, 11]), ("acoustic", [9, 10, 11])]

/-- Embedding of `WeightCalculator.apply_seasonal_adjustment`: the loop
multiplies by 1.3 for the first (hence: any) matching genre key. -/
def apply_seasonal_adjustment (cfg : AlgorithmConfig) (clock : Clock)
    (genres : List String) (weight : ℚ) : ℚ :=
  if !cfg.seasonal_adjustment || genres.isEmpty then weight
  else
    let primary_genre := pyLower (genres.headD "")
    if seasonal_boosts.any
        (fun p => strContains primary_genre p.1 && p.2.contains clock.month)
    then weight * (13 / 10)
    else weight

/-- Embedding of `WeightCalculator.apply_time_based_adjustment`. -/
def apply_time_based_adjustment (cfg : AlgorithmConfig) (clock : Clock)
    (genres : List String) (weight : ℚ) : ℚ :=
  if !cfg.time_based_preferences || genres.isEmpty then weight
  else
    let primary_genre := pyLower (genres.headD "")
    let h := clock.hour
    if 6 ≤ h ∧ h ≤ 10 then
      if ["classical", "acoustic", "folk", "jazz"].any
          (fun g => strContains primary_genre g) then weight * (6 / 5)
      else weight
    else if 18 ≤ h ∧ h ≤ 22 then
      if ["electronic", "rock", "pop"].any
          (fun g => strContains primary_genre g) then weight * (6 / 5)
      else weight
    else if 22 ≤ h ∨ h ≤ 6 then
      if ["ambient", "classical", "jazz"].any
          (fun g => strContains primary_genre g) then weight * (13 / 10)
      else weight
    else weight

end WeightCalculator

/-- One element of `SelectionHistory.selections` (field values captured at
selection time from the selection dict, see `SelectionHistory.add_selection`). -/
structure HistEntry where
  album_id : Int
  timestamp : Int
  genres : List String
  artist : String
  rating : Option Int
  play_count : Option Int
  deriving DecidableEq

/-- Python `deque(maxlen=n)` append: drop from the left past capacity. -/
def pushBounded {α : Type} (n : Nat) (l : List α) (x : α) : List α :=
  let l := l ++ [x]
  l.drop (l.length - n)

/-- Python `lst[-count:]`: the last `count` elements (the whole list when
`count = 0`). -/
def pySliceLast {α : Type} (count : Nat) (l : List α) : List α :=
  if count = 0 then l else l.drop (l.length - count)

/-- Embedding of the `SelectionHistory` class: the bounded deques
`selections` (capacity `max_size`), `genre_history` (10) and
`artist_history` (5). -/
structure SelectionHistoryState where
  max_size : Nat
  selections : List HistEntry
  genre_history : List String
  artist_history : List String

namespace SelectionHistoryState

/-- Fresh history, as built by `SelectionHistory.__init__`. -/
def init (max_size : Nat) : SelectionHistoryState :=
  { max_size := max_size, selections := [], genre_history := [], artist_history := [] }

/-- Embedding of `SelectionHistory.add_selection` (the argument fields are
the dict reads `album['id']`, `album.get('genres', [])`, … made by the
source). -/
def add_selection (h : SelectionHistoryState) (now : Int) (album_id : Int)
    (genres : List String) (artist : String) (rating play_count : Option Int) :
    SelectionHistoryState :=
  { h with
      selections := pushBounded h.max_size h.selections
        { album_id := album_id, timestamp := now, genres := genres
          artist := artist, rating := rating, play_count := play_count }
      genre_history :=
        match genres with
        | [] => h.genre_history
        | g :: _ => pushBounded 10 h.genre_history g
      artist_history := pushBounded 5 h.artist_history artist }

/-- Embedding of `SelectionHistory.get_recent_albums`: ids selected within
the last `hours` hours. -/
def get_recent_albums (h : SelectionHistoryState) (now : Int) (hours : Int) :
    List Int :=
  let cutoff := now - hours * 3600
  (h.selections.filter (fun s => s.timestamp > cutoff)).map (fun s => s.album_id)

/-- Embedding of `SelectionHistory.get_recent_genres`. -/
def get_recent_genres (h : SelectionHistoryState) (count : Nat) : List String :=
  pySliceLast count h.genre_history

/-- Embedding of `SelectionHistory.get_recent_artists`. -/
def get_recent_artists (h : SelectionHistoryState) (count : Nat) : List String :=
  pySliceLast count h.artist_history

end SelectionHistoryState

/-! ## random_algorithm.py : RandomAlgorithm engine state and operations -/

/-- One row of the `intelligent_cache` table.  `id` is the SQLite
`INTEGER PRIMARY KEY` rowid; the refresh deletes every row first, so the
subsequent bulk insert numbers rows 1, 2, … in insertion order. -/
structure WeightRow where
  id : Int
  album_id : Int
  base_weight : ℚ
  rating_weight : ℚ
  play_count_weight : ℚ
  recency_weight : ℚ
  diversity_weight : ℚ
  final_weight : ℚ
  last_computed : Int
  times_served : Nat
  last_served : Option Int
  deriving DecidableEq

/-- The `weight_factors` JSON blob stored with each selection record
(`_record_selection`). -/
structure WeightFactors where
  rating_weight : ℚ
  play_count_weight : ℚ
  recency_weight : ℚ
  diversity_weight : ℚ
  final_weight : ℚ
  deriving DecidableEq

/-- One row of the `selection_history` table. -/
structure SelRecord where
  id : Nat
  album_id : Int
  selected_at : Int
  user_feedback : Option Int
  session_id : String
  algorithm_version : String
  weight_factors : WeightFactors
  deriving DecidableEq

/-- The dict returned by `select_random_album`.  On the weighted path it is
`dict(SELECT ic.*, a.title, a.artist, a.year, a.cover_url, a.genres,
a.styles …)`, so its `id` key is the cache row's primary key `ic.id` (not
the album id) and it has no `rating`/`play_count` keys (`album.get(…, 0)`
yields 0); on the fallback path it is `dict(SELECT * FROM albums …)`, so
`id` is the album id and rating/play_count are the column values.  `wf`
holds the `album.get('…_weight', 1.0)` reads of `_record_selection`. -/
structure SelectedAlbum where
  dict_id : Int
  album_id : Int
  title : String
  artist : String
  genres : List String
  rating : Option Int
  play_count : Option Int
  from_cache : Bool
  wf : WeightFactors

/-- Engine state: the collaborator's `albums` table (read-only snapshot),
the `intelligent_cache` and `selection_history` tables, the in-memory
`SelectionHistory`, and the staleness timestamp.  `next_history_id` is the
next `selection_history` rowid. -/
structure RandomAlgorithmState where
  albums : List Album
  intelligent_cache : List WeightRow
  selection_history : List SelRecord
  next_history_id : Nat
  history : SelectionHistoryState
  last_cache_refresh : Int

namespace RandomAlgorithm

open WeightCalculator

/-- Embedding of `RandomAlgorithm._refresh_selection_cache`: with no albums
it logs and returns (the old cache stays); otherwise it computes the five
factors per album from the current history snapshot, skips albums in the
exclusion window, combines and floors the final weight at 0.01, and
replaces the whole `intelligent_cache` table. -/
def refreshSelectionCache (env : MathEnv) (cfg : AlgorithmConfig)
    (clock : Clock) (st : RandomAlgorithmState) : RandomAlgorithmState :=
  if st.albums.isEmpty then st
  else
    let play_counts := st.albums.map (fun a => a.play_count.getD 0)
    let avg_play_count : ℚ :=
      if play_counts.isEmpty then 1
      else (play_counts.sum : ℚ) / (play_counts.length : ℚ)
    let recent_genres := st.history.get_recent_genres cfg.genre_cooldown_selections
    let recent_artists := st.history.get_recent_artists cfg.max_same_artist_streak
    let recent_albums :=
      st.history.get_recent_albums clock.sec cfg.min_time_between_repeats_hours
    let cache_entries := st.albums.filterMap (fun album =>
      if recent_albums.contains album.id then none
      else
        let rating_weight := calculate_rating_weight cfg album.rating
        let play_count_weight :=
          calculate_play_count_weight env cfg album.play_count avg_play_count
        let recency_weight :=
          calculate_recency_weight env cfg clock album.date_added album.last_played
        let diversity_weight :=
          calculate_genre_diversity_weight cfg album.genres recent_genres
        let artist_weight :=
          calculate_artist_diversity_weight album.artist recent_artists
        let base_weight := rating_weight * play_count_weight * recency_weight
        let final_weight := base_weight * diversity_weight * artist_weight
        let final_weight := apply_seasonal_adjustment cfg clock album.genres final_weight
        let final_weight := apply_time_based_adjustment cfg clock album.genres final_weight
        let final_weight := pyMax (1 / 100) final_weight
        some (album.id, rating_weight, play_count_weight, recency_weight,
          diversity_weight, final_weight))
    let rows := cache_entries.enum.map (fun p =>
      { id := (p.1 : Int) + 1
        album_id := p.2.1
        base_weight := 1
        rating_weight := p.2.2.1
        play_count_weight := p.2.2.2.1
        recency_weight := p.2.2.2.2.1
        diversity_weight := p.2.2.2.2.2.1
        final_weight := p.2.2.2.2.2.2
        last_computed := clock.sec
        times_served := 0
        last_served := none : WeightRow })
    { st with intelligent_cache := rows, last_cache_refresh := clock.sec }

/-- The tail of `select_random_album` after a row has been drawn: insert a
`selection_history` record (`_record_selection`, with `album['id']` — the
dict id), bump `times_served`/`last_served` of the cache rows whose
`album_id` equals the dict id (only when the dict came from the cache,
i.e. has a `final_weight` key), and append to the in-memory history. -/
def finishSelection (clock : Clock) (session_id : Option String)
    (album : SelectedAlbum) (st : RandomAlgorithmState) :
    Option SelectedAlbum × RandomAlgorithmState :=
  let rec1 : SelRecord :=
    { id := st.next_history_id
      album_id := album.dict_id
      selected_at := clock.sec
      user_feedback := none
      session_id := session_id.getD "anonymous"
      algorithm_version := "1.0"
      weight_factors := album.wf }
  let st := { st with
      selection_history := st.selection_history ++ [rec1]
      next_history_id := st.next_history_id + 1 }
  let st :=
    if album.from_cache then
      { st with intelligent_cache := st.intelligent_cache.map (fun row =>
          if row.album_id == album.dict_id then
            { row with times_served := row.times_served + 1
                       last_served := some clock.sec }
          else row) }
    else st
  let h1 := st.history.add_selection clock.sec album.dict_id album.genres
    album.artist album.rating album.play_count
  let st := { st with history := h1 }
  (some album, st)

/-- The row set drawn from by `select_random_album`:
`SELECT ic.*, a.… FROM intelligent_cache ic JOIN albums a ON ic.album_id =
a.id WHERE ic.final_weight > 0`. -/
def weightedCandidates (st : RandomAlgorithmState) : List (WeightRow × Album) :=
  (st.intelligent_cache.filter (fun row => 0 < row.final_weight)).filterMap
    (fun row => (st.albums.find? (fun a => a.id == row.album_id)).map
      (fun a => (row, a)))

/-- Embedding of `RandomAlgorithm.select_random_album`: refresh the cache
when it is over an hour old; draw from the weighted candidates (the
`ORDER BY RANDOM() * final_weight DESC LIMIT 1` draw is modelled by the
externally supplied random number `r` choosing an index); when that yields
nothing, fall back to a uniform draw over the whole `albums` table; `None`
only when that too is empty. -/
def selectRandomAlbum (env : MathEnv) (cfg : AlgorithmConfig) (clock : Clock)
    (r : Nat) (session_id : Option String) (st : RandomAlgorithmState) :
    Option SelectedAlbum × RandomAlgorithmState :=
  let st :=
    if clock.sec - st.last_cache_refresh > 3600
    then refreshSelectionCache env cfg clock st else st
  let candidates := weightedCandidates st
  match candidates.get? (r % candidates.length) with
  | some (row, a) =>
      let album : SelectedAlbum :=
        { dict_id := row.id
          album_id := row.album_id
          title := a.title
          artist := a.artist
          genres := a.genres
          rating := some 0
          play_count := some 0
          from_cache := true
          wf :=
            { rating_weight := row.rating_weight
              play_count_weight := row.play_count_weight
              recency_weight := row.recency_weight
              diversity_weight := row.diversity_weight
              final_weight := row.final_weight } }
      finishSelection clock session_id album st
  | none =>
      match st.albums.get? (r % st.albums.length) with
      | some a =>
          let album : SelectedAlbum :=
            { dict_id := a.id
              album_id := a.id
              title := a.title
              artist := a.artist
              genres := a.genres
              rating := a.rating
              play_count := a.play_count
              from_cache := false
              wf :=
                { rating_weight := 1, play_count_weight := 1, recency_weight := 1
                  diversity_weight := 1, final_weight := 1 } }
          finishSelection clock session_id album st
      | none => (none, st)

/-- Does this `selection_history` row match the `WHERE` clause of
`record_user_feedback` (same album and session, feedback still NULL)? -/
def isUnfedMatch (album_id : Int) (session : String) (r : SelRecord) : Bool :=
  r.album_id == album_id && r.session_id == session && r.user_feedback.isNone

/-- The row picked by `UPDATE … ORDER BY selected_at DESC LIMIT 1`: the
matching row with the greatest `selected_at` (ties towards the
later-inserted row). -/
def mostRecentUnfed (tbl : List SelRecord) (album_id : Int) (session : String) :
    Option SelRecord :=
  (tbl.filter (isUnfedMatch album_id session)).foldl
    (fun acc r =>
      match acc with
      | none => some r
      | some b =>
          if b.selected_at < r.selected_at ∨
              (b.selected_at = r.selected_at ∧ b.id ≤ r.id)
          then some r else some b)
    none

/-- Embedding of `RandomAlgorithm.record_user_feedback`: set
`user_feedback` on the single matching row picked by `mostRecentUnfed`
(no-op when nothing matches).  The user-satisfaction EMA it also updates is
observability-only state and not modelled. -/
def recordUserFeedback (st : RandomAlgorithmState) (album_id : Int)
    (feedback : Int) (session_id : Option String) : RandomAlgorithmState :=
  let session := session_id.getD "anonymous"
  match mostRecentUnfed st.selection_history album_id session with
  | none => st
  | some target =>
      { st with selection_history := st.selection_history.map (fun r =>
          if r.id == target.id
          then { r with user_feedback := some feedback } else r) }

end RandomAlgorithm

/-! ## Concrete fixtures used by witnesses and counterexamples -/

/-- A minimal cache entry for concrete LRU scenarios. -/
def testEntry (path : String) (size : Int) : CacheEntry :=
  { file_path := path, original_url := path, size_type := "detail",
    file_size := size, created_at := 0, last_accessed := 0, access_count := 1,
    width := 1, height := 1 }

/-- The spec's eviction-order scenario: insert A, B, C, access A again,
then insert D, forcing one eviction. -/
def lruScenarioOps : List CacheOp :=
  [CacheOp.put "A" (testEntry "fA" 1), CacheOp.put "B" (testEntry "fB" 1),
   CacheOp.put "C" (testEntry "fC" 1), CacheOp.get 1 "A",
   CacheOp.put "D" (testEntry "fD" 1)]

/-- Math environment with trivial transcendentals, for concrete evaluation
(the claims hold for every `MathEnv`). -/
def envTest : MathEnv := { exp := fun _ => 1, log := fun _ => 1 }

/-- Trivial image-processing pipeline for concrete evaluation. -/
def imgEnvTest : ImgEnv :=
  { proc := fun _ _ => { len := 10, width := 5, height := 5 } }

/-- Empty image-cache service state over a 100-byte LRU budget. -/
def imgStTest : ImageCacheState :=
  { cache_dir := "cache", lru := LRUCache.init 100, files := [] }

/-- An HTTP 404 response carrying an otherwise fine image body. -/
def resp404 : Response :=
  { network_error := false, status := 404, content_type := "image/jpeg",
    body := { len := 3, valid := true, content := 0 } }

/-- A bare album row for concrete selection scenarios. -/
def albumTest (i : Int) (artist : String) : Album :=
  { id := i, title := "t", artist := artist, year := 2000, cover_url := "",
    genres := [], styles := [], rating := none, play_count := some 0,
    date_added := none, last_played := none }

/-- Two-album engine state before any refresh. -/
def stC2base : RandomAlgorithmState :=
  { albums := [albumTest 10 "x", albumTest 20 "y"]
    intelligent_cache := []
    selection_history := []
    next_history_id := 1
    history := SelectionHistoryState.init 50
    last_cache_refresh := 0 }

/-- A clock at second `s` (month/hour chosen so no seasonal or time boost
table matches the empty genre lists anyway). -/
def clockC2 (s : Int) : Clock := { sec := s, days := 0, month := 3, hour := 12 }

/-- Neutral weight-factors blob. -/
def wfTest : WeightFactors :=
  { rating_weight := 1, play_count_weight := 1, recency_weight := 1,
    diversity_weight := 1, final_weight := 1 }

/-- An older selection-history row for album 10 with feedback unset. -/
def recC6a : SelRecord :=
  { id := 1, album_id := 10, selected_at := 5, user_feedback := none,
    session_id := "anonymous", algorithm_version := "1.0",
    weight_factors := wfTest }

/-- A more recent selection-history row for album 10, feedback unset. -/
def recC6b : SelRecord :=
  { id := 2, album_id := 10, selected_at := 7, user_feedback := none,
    session_id := "anonymous", algorithm_version := "1.0",
    weight_factors := wfTest }

/-- Engine state whose durable history holds the two rows above. -/
def stC6 : RandomAlgorithmState :=
  { stC2base with selection_history := [recC6a, recC6b] }

/-- Engine state whose in-memory history holds a selection of album 10 at
time 900 (inside the 24-hour exclusion window at time 1000). -/
def stC2w : RandomAlgorithmState :=
  { stC2base with history :=
      (SelectionHistoryState.init 50).add_selection 900 10 [] "x" none none }

/-- Engine state after the initial cache refresh at time 1000. -/
def stC2 : RandomAlgorithmState :=
  RandomAlgorithm.refreshSelectionCache envTest {} (clockC2 1000) stC2base

/-- First selection (time 1001, random draw 0). -/
def selC2a : Option SelectedAlbum × RandomAlgorithmState :=
  RandomAlgorithm.selectRandomAlbum envTest {} (clockC2 1001) 0 none stC2

/-- Second selection immediately afterwards (time 1002, random draw 0),
well inside the 24-hour exclusion window. -/
def selC2b : Option SelectedAlbum × RandomAlgorithmState :=
  RandomAlgorithm.selectRandomAlbum envTest {} (clockC2 1002) 0 none selC2a.2

/-! ## Lemmas about the LRU cache -/

namespace LRUCache

theorem storedSize_nil : storedSize [] = 0 := rfl

theorem storedSize_cons (p : String × CacheEntry) (l : List (String × CacheEntry)) :
    storedSize (p :: l) = p.2.file_size + storedSize l := by
  simp [storedSize]

theorem storedSize_append (l1 l2 : List (String × CacheEntry)) :
    storedSize (l1 ++ l2) = storedSize l1 + storedSize l2 := by
  simp [storedSize]

theorem keys_removeKey (l : List (String × CacheEntry)) (key : String) :
    (removeKey l key).map Prod.fst = (l.map Prod.fst).filter (fun k => k != key) := by
  induction l with
  | nil => rfl
  | cons p t ih =>
      by_cases h : p.1 = key
      · simp [removeKey, List.filter, h] at ih ⊢
        exact ih
      · have hb : (p.1 != key) = true := by simp [h]
        simp [removeKey, List.filter, hb] at ih ⊢
        exact ih

theorem key_not_mem_removeKey (l : List (String × CacheEntry)) (key : String) :
    key ∉ (removeKey l key).map Prod.fst := by
  rw [keys_removeKey]
  intro hmem
  rcases List.mem_filter.mp hmem with ⟨_, hne⟩
  simp at hne

theorem nodup_keys_removeKey (l : List (String × CacheEntry)) (key : String)
    (h : (l.map Prod.fst).Nodup) : ((removeKey l key).map Prod.fst).Nodup := by
  rw [keys_removeKey]
  exact h.filter _

theorem storedSize_removeKey (l : List (String × CacheEntry)) (key : String)
    (pr : String × CacheEntry) (hnd : (l.map Prod.fst).Nodup)
    (hf : l.find? (fun p => p.1 == key) = some pr) :
    storedSize (removeKey l key) = storedSize l - pr.2.file_size := by
  induction l with
  | nil => simp at hf
  | cons p t ih =>
      rcases List.find?_cons_eq_some.mp hf with ⟨hpa, rfl⟩ | ⟨hpa, hrest⟩
      · have h : p.1 = key := by simpa using hpa
        have hndc : (p.1 :: t.map Prod.fst).Nodup := by simpa using hnd
        have hnotmem : p.1 ∉ t.map Prod.fst := (List.nodup_cons.mp hndc).1
        have hself : t.filter (fun q => q.1 != key) = t := by
          apply List.filter_eq_self.mpr
          intro q hq
          have hqk : q.1 ≠ key := by
            intro hk
            apply hnotmem
            rw [h, ← hk]
            exact List.mem_map_of_mem Prod.fst hq
          simp [hqk]
        have hkeep : removeKey (p :: t) key = t := by
          have hb2 : (p.1 != key) = false := by simp [h]
          simp only [removeKey, List.filter, hb2]
          exact hself
        rw [hkeep, storedSize_cons]
        ring
      · have h : ¬p.1 = key := by simpa using hpa
        have hndc : (p.1 :: t.map Prod.fst).Nodup := by simpa using hnd
        have hnd2 : (t.map Prod.fst).Nodup := (List.nodup_cons.mp hndc).2
        have hb2 : (p.1 != key) = true := by simp [h]
        have hrk : removeKey (p :: t) key = p :: removeKey t key := by
          simp only [removeKey, List.filter, hb2]
        rw [hrk, storedSize_cons, storedSize_cons, ih hnd2 hrest]
        ring

theorem nodup_keys_append_single (l : List (String × CacheEntry)) (key : String)
    (e : CacheEntry) (hnd : (l.map Prod.fst).Nodup) (hk : key ∉ l.map Prod.fst) :
    ((l ++ [(key, e)]).map Prod.fst).Nodup := by
  rw [List.map_append]
  refine List.Nodup.append hnd (by simp) ?_
  intro a ha hb
  simp at hb
  subst hb
  exact hk ha

theorem storedSize_append_single (l : List (String × CacheEntry)) (key : String)
    (e : CacheEntry) :
    storedSize (l ++ [(key, e)]) = storedSize l + e.file_size := by
  rw [storedSize_append, storedSize_cons, storedSize_nil]
  ring

theorem lookup_eq_some (c : LRUCache) (key : String) (e : CacheEntry)
    (h : c.lookup key = some e) :
    ∃ pr, c.cache.find? (fun p => p.1 == key) = some pr ∧
      pr.1 = key ∧ pr.2 = e := by
  unfold lookup at h
  rcases Option.map_eq_some'.mp h with ⟨pr, hpr, hsnd⟩
  refine ⟨pr, hpr, ?_, hsnd⟩
  have := List.find?_some hpr
  simpa using this

theorem lookup_eq_none_not_mem (c : LRUCache) (key : String)
    (h : c.lookup key = none) : key ∉ c.cache.map Prod.fst := by
  intro hmem
  rcases List.mem_map.mp hmem with ⟨pr, hpr, hk⟩
  unfold lookup at h
  have hf : c.cache.find? (fun p => p.1 == key) = none :=
    Option.map_eq_none'.mp h
  have := List.find?_eq_none.mp hf pr hpr
  simp [hk] at this

theorem WF_init (max : Int) : WF (init max) := by
  constructor
  · simp [init, keys]
  · simp [init, sizeInv, storedSize]

theorem get_WF (c : LRUCache) (now : Int) (key : String) (h : WF c) :
    WF (c.get now key).2 := by
  rcases h with ⟨hnd, hsz⟩
  have hsz2 : c.current_size_bytes = storedSize c.cache := hsz
  unfold get
  cases hl : c.lookup key with
  | none => exact ⟨hnd, hsz⟩
  | some e =>
      rcases lookup_eq_some _ _ _ hl with ⟨pr, hf, hk, he⟩
      dsimp only
      refine ⟨nodup_keys_append_single _ _ _ (nodup_keys_removeKey _ _ hnd)
        (key_not_mem_removeKey c.cache key), ?_⟩
      show c.current_size_bytes = storedSize (removeKey c.cache key ++ [(key, _)])
      rw [storedSize_append_single, storedSize_removeKey c.cache key pr hnd hf, he]
      show c.current_size_bytes = storedSize c.cache - e.file_size + e.file_size
      rw [hsz2]
      ring

theorem evictLRU_WF (c : LRUCache) (h : WF c) : WF c.evictLRU := by
  rcases h with ⟨hnd, hsz⟩
  have hsz2 : c.current_size_bytes = storedSize c.cache := hsz
  unfold evictLRU
  cases hc : c.cache with
  | nil => exact ⟨hnd, hsz⟩
  | cons p t =>
      refine ⟨?_, ?_⟩
      · have hnd2 : ((p :: t).map Prod.fst).Nodup := by rw [← hc]; exact hnd
        simpa using hnd2.of_cons
      · show c.current_size_bytes - p.2.file_size = storedSize t
        rw [hsz2, hc, storedSize_cons]
        ring

theorem evictLRU_keys_sub (c : LRUCache) : c.evictLRU.keys ⊆ c.keys := by
  unfold evictLRU
  cases hc : c.cache with
  | nil => exact fun a ha => ha
  | cons p t =>
      intro a ha
      show a ∈ c.cache.map Prod.fst
      rw [hc]
      simp only [keys, List.map_cons] at ha ⊢
      exact List.mem_cons_of_mem _ ha

theorem evictWhileFuel_WF (fuel : Nat) (c : LRUCache) (sz : Int) (h : WF c) :
    WF (evictWhileFuel fuel c sz) := by
  induction fuel generalizing c with
  | zero => exact h
  | succ n ih =>
      unfold evictWhileFuel
      split
      · exact ih _ (evictLRU_WF c h)
      · exact h

theorem evictWhileFuel_keys_sub (fuel : Nat) (c : LRUCache) (sz : Int) :
    (evictWhileFuel fuel c sz).keys ⊆ c.keys := by
  induction fuel generalizing c with
  | zero => exact fun a ha => ha
  | succ n ih =>
      unfold evictWhileFuel
      split
      · exact fun a ha => evictLRU_keys_sub c (ih c.evictLRU ha)
      · exact fun a ha => ha

theorem evictWhile_WF (c : LRUCache) (sz : Int) (h : WF c) :
    WF (evictWhile c sz) :=
  evictWhileFuel_WF _ _ _ h

theorem evictWhile_keys_sub (c : LRUCache) (sz : Int) :
    (evictWhile c sz).keys ⊆ c.keys :=
  evictWhileFuel_keys_sub _ _ _

theorem putStage1_WF (c : LRUCache) (key : String) (h : WF c) :
    WF (putStage1 c key) ∧ key ∉ (putStage1 c key).keys := by
  rcases h with ⟨hnd, hsz⟩
  have hsz2 : c.current_size_bytes = storedSize c.cache := hsz
  unfold putStage1
  cases hl : c.lookup key with
  | none => exact ⟨⟨hnd, hsz⟩, lookup_eq_none_not_mem c key hl⟩
  | some old =>
      rcases lookup_eq_some _ _ _ hl with ⟨pr, hf, hk, he⟩
      refine ⟨⟨nodup_keys_removeKey _ _ hnd, ?_⟩, key_not_mem_removeKey c.cache key⟩
      show c.current_size_bytes - old.file_size = storedSize (removeKey c.cache key)
      rw [storedSize_removeKey c.cache key pr hnd hf, he, hsz2]

theorem put_WF (c : LRUCache) (key : String) (entry : CacheEntry) (h : WF c) :
    WF (c.put key entry).2 := by
  rcases putStage1_WF c key h with ⟨h1, hk1⟩
  have h2 := evictWhile_WF (putStage1 c key) entry.file_size h1
  have hk2 : key ∉ (evictWhile (putStage1 c key) entry.file_size).keys :=
    fun hm => hk1 (evictWhile_keys_sub _ _ hm)
  unfold put
  dsimp only
  split
  · exact h2
  · rcases h2 with ⟨hnd2, hsz2⟩
    have hsz3 : (evictWhile (putStage1 c key) entry.file_size).current_size_bytes =
        storedSize (evictWhile (putStage1 c key) entry.file_size).cache := hsz2
    refine ⟨?_, ?_⟩
    · show (((evictWhile (putStage1 c key) entry.file_size).cache ++
          [(key, entry)]).map Prod.fst).Nodup
      rw [List.map_append]
      apply List.Nodup.append hnd2 (by simp)
      intro a ha hb
      simp at hb
      subst hb
      exact hk2 ha
    · show (evictWhile (putStage1 c key) entry.file_size).current_size_bytes +
          entry.file_size =
        storedSize ((evictWhile (putStage1 c key) entry.file_size).cache ++
          [(key, entry)])
      rw [storedSize_append, storedSize_cons, storedSize_nil, hsz3]
      ring

theorem remove_WF (c : LRUCache) (key : String) (h : WF c) :
    WF (c.remove key).2 := by
  rcases h with ⟨hnd, hsz⟩
  have hsz2 : c.current_size_bytes = storedSize c.cache := hsz
  unfold remove
  cases hl : c.lookup key with
  | some e =>
      rcases lookup_eq_some _ _ _ hl with ⟨pr, hf, hk, he⟩
      refine ⟨nodup_keys_removeKey _ _ hnd, ?_⟩
      show c.current_size_bytes - e.file_size = storedSize (removeKey c.cache key)
      rw [storedSize_removeKey c.cache key pr hnd hf, he, hsz2]
  | none => exact ⟨hnd, hsz⟩

theorem clear_WF (c : LRUCache) : WF c.clear := by
  constructor
  · simp [clear, keys]
  · simp [clear, sizeInv, storedSize]

end LRUCache

theorem applyOp_WF (c : LRUCache) (op : CacheOp) (h : LRUCache.WF c) :
    LRUCache.WF (applyOp c op) := by
  cases op with
  | get now key => exact LRUCache.get_WF c now key h
  | put key entry => exact LRUCache.put_WF c key entry h
  | remove key => exact LRUCache.remove_WF c key h
  | evict => exact LRUCache.evictLRU_WF c h
  | clear => exact LRUCache.clear_WF c

theorem applyOps_WF (c : LRUCache) (ops : List CacheOp) (h : LRUCache.WF c) :
    LRUCache.WF (applyOps c ops) := by
  induction ops generalizing c with
  | nil => exact h
  | cons op rest ih => exact ih _ (applyOp_WF c op h)

/-- C4: after every finite sequence of LRUCache operations (put, get,
remove, internal eviction, clear) starting from a fresh cache,
`current_size_bytes` equals the sum of `file_size` over exactly the entries
currently stored in the cache. -/
theorem claim_C4_size_invariant (max : Int) (ops : List CacheOp) :
    (applyOps (LRUCache.init max) ops).current_size_bytes =
      LRUCache.storedSize (applyOps (LRUCache.init max) ops).cache :=
  (applyOps_WF (LRUCache.init max) ops (LRUCache.WF_init max)).2

/-! ## Further LRU lemmas: eviction shape and the oversized-entry path -/

namespace LRUCache

theorem storedSize_nonneg (l : List (String × CacheEntry))
    (h : ∀ p ∈ l, 0 ≤ p.2.file_size) : 0 ≤ storedSize l := by
  induction l with
  | nil => simp [storedSize]
  | cons p t ih =>
      rw [storedSize_cons]
      have h1 := h p (List.mem_cons_self p t)
      have h2 := ih (fun q hq => h q (List.mem_cons_of_mem p hq))
      omega

theorem evictLRU_eq_nil (c : LRUCache) (hc : c.cache = []) : c.evictLRU = c := by
  unfold evictLRU
  rw [hc]

theorem evictLRU_eq_cons (c : LRUCache) (p : String × CacheEntry)
    (t : List (String × CacheEntry)) (hc : c.cache = p :: t) :
    c.evictLRU =
      { c with
          cache := t
          current_size_bytes := c.current_size_bytes - p.2.file_size
          evictions := c.evictions + 1 } := by
  unfold evictLRU
  rw [hc]

theorem evictLRU_cache_tail (c : LRUCache) (h : c.cache ≠ []) :
    c.evictLRU.cache = c.cache.tail := by
  cases hc : c.cache with
  | nil => exact absurd hc h
  | cons p t => simp [evictLRU_eq_cons c p t hc, hc]

theorem evictLRU_sizeInv (c : LRUCache) (h : sizeInv c) : sizeInv c.evictLRU := by
  have h2 : c.current_size_bytes = storedSize c.cache := h
  cases hc : c.cache with
  | nil => rw [evictLRU_eq_nil c hc]; exact h
  | cons p t =>
      rw [evictLRU_eq_cons c p t hc]
      show c.current_size_bytes - p.2.file_size = storedSize t
      rw [h2, hc, storedSize_cons]
      ring

theorem evictLRU_max (c : LRUCache) :
    c.evictLRU.max_size_bytes = c.max_size_bytes := by
  cases hc : c.cache with
  | nil => rw [evictLRU_eq_nil c hc]
  | cons p t => rw [evictLRU_eq_cons c p t hc]

theorem evictLRU_pos (c : LRUCache) (h : ∀ p ∈ c.cache, 0 ≤ p.2.file_size) :
    ∀ p ∈ c.evictLRU.cache, 0 ≤ p.2.file_size := by
  cases hc : c.cache with
  | nil => rw [evictLRU_eq_nil c hc]; exact h
  | cons p t =>
      rw [evictLRU_eq_cons c p t hc]
      intro q hq
      exact h q (hc ▸ List.mem_cons_of_mem p hq)

theorem evictWhileFuel_max (fuel : Nat) (c : LRUCache) (sz : Int) :
    (evictWhileFuel fuel c sz).max_size_bytes = c.max_size_bytes := by
  induction fuel generalizing c with
  | zero => rfl
  | succ n ih =>
      unfold evictWhileFuel
      split
      · rw [ih, evictLRU_max]
      · rfl

theorem evictWhile_max (c : LRUCache) (sz : Int) :
    (evictWhile c sz).max_size_bytes = c.max_size_bytes :=
  evictWhileFuel_max _ _ _

theorem putStage1_max (c : LRUCache) (key : String) :
    (putStage1 c key).max_size_bytes = c.max_size_bytes := by
  unfold putStage1
  cases hl : c.lookup key <;> rfl

theorem putStage1_cache_sub (c : LRUCache) (key : String) :
    ∀ p ∈ (putStage1 c key).cache, p ∈ c.cache := by
  unfold putStage1
  cases hl : c.lookup key with
  | none => exact fun p hp => hp
  | some old => exact fun p hp => List.mem_of_mem_filter hp

theorem evictWhileFuel_oversized (fuel : Nat) (c : LRUCache) (sz : Int)
    (hfuel : c.cache.length ≤ fuel) (hsz : sizeInv c)
    (hpos : ∀ p ∈ c.cache, 0 ≤ p.2.file_size)
    (hbig : sz > c.max_size_bytes) :
    (evictWhileFuel fuel c sz).cache = [] ∧
      (evictWhileFuel fuel c sz).current_size_bytes = 0 := by
  induction fuel generalizing c with
  | zero =>
      have hc : c.cache = [] := List.length_eq_zero.mp (Nat.le_zero.mp hfuel)
      refine ⟨hc, ?_⟩
      have h2 : c.current_size_bytes = storedSize c.cache := hsz
      show c.current_size_bytes = 0
      rw [h2, hc]
      rfl
  | succ n ih =>
      unfold evictWhileFuel
      by_cases hc : c.cache = []
      · rw [if_neg (by simp [hc])]
        refine ⟨hc, ?_⟩
        have h2 : c.current_size_bytes = storedSize c.cache := hsz
        rw [h2, hc]
        rfl
      · have hcur : 0 ≤ c.current_size_bytes := by
          have h2 : c.current_size_bytes = storedSize c.cache := hsz
          rw [h2]
          exact storedSize_nonneg _ hpos
        rw [if_pos ⟨by omega, hc⟩]
        apply ih
        · cases hcc : c.cache with
          | nil => exact absurd hcc hc
          | cons p t =>
              rw [evictLRU_eq_cons c p t hcc]
              have hlen : (p :: t).length ≤ n + 1 := by rw [← hcc]; exact hfuel
              show t.length ≤ n
              simp at hlen
              omega
        · exact evictLRU_sizeInv c hsz
        · exact evictLRU_pos c hpos
        · rw [evictLRU_max]; exact hbig

end LRUCache

/-- C1 counterexample: with a 10-byte budget holding one 4-byte entry,
putting an 11-byte entry under a fresh key returns `False` but does NOT
leave the state unchanged: the existing entry is evicted (the cache ends up
empty) and `current_size_bytes` changes.  This refutes the claim that an
oversized put "leaves the cache state completely unchanged: no existing
entry is evicted … current_size_bytes is unchanged". -/
theorem claim_C1_counterexample :
    (((LRUCache.init 10).put "k1" (testEntry "f1" 4)).2.put "k2"
      (testEntry "f2" 11)).1 = false ∧
    ((LRUCache.init 10).put "k1" (testEntry "f1" 4)).2.cache ≠ [] ∧
    (((LRUCache.init 10).put "k1" (testEntry "f1" 4)).2.put "k2"
      (testEntry "f2" 11)).2.cache = [] ∧
    (((LRUCache.init 10).put "k1" (testEntry "f1" 4)).2.put "k2"
        (testEntry "f2" 11)).2.current_size_bytes ≠
      ((LRUCache.init 10).put "k1" (testEntry "f1" 4)).2.current_size_bytes := by
  decide

/-- C1 amended: an oversized `put` (entry larger than the whole budget)
returns `False` and the oversized entry is not stored, but the prior state
is NOT preserved: the eviction loop runs first, so (for well-formed states
with nonnegative entry sizes) every existing entry — including any entry
under the same key — is removed and the cache is left empty with
`current_size_bytes = 0`. -/
theorem claim_C1_amended (c : LRUCache) (key : String) (entry : CacheEntry)
    (hwf : LRUCache.WF c) (hpos : ∀ p ∈ c.cache, 0 ≤ p.2.file_size)
    (hbig : entry.file_size > c.max_size_bytes) :
    (c.put key entry).1 = false ∧ (c.put key entry).2.cache = [] ∧
      (c.put key entry).2.current_size_bytes = 0 := by
  rcases LRUCache.putStage1_WF c key hwf with ⟨⟨hnd1, hsz1⟩, _⟩
  have hpos1 : ∀ p ∈ (LRUCache.putStage1 c key).cache, 0 ≤ p.2.file_size :=
    fun p hp => hpos p (LRUCache.putStage1_cache_sub c key p hp)
  have hbig1 : entry.file_size > (LRUCache.putStage1 c key).max_size_bytes := by
    rw [LRUCache.putStage1_max]; exact hbig
  have hev := LRUCache.evictWhileFuel_oversized
    (LRUCache.putStage1 c key).cache.length (LRUCache.putStage1 c key)
    entry.file_size le_rfl hsz1 hpos1 hbig1
  unfold LRUCache.put
  dsimp only
  rw [if_pos (by rw [LRUCache.evictWhile_max, LRUCache.putStage1_max]; exact hbig)]
  exact ⟨rfl, hev.1, hev.2⟩

/-- Witness for the amended C1 at the counterexample state. -/
theorem claim_C1_amended_witness :
    ((((LRUCache.init 10).put "k1" (testEntry "f1" 4)).2.put "k2"
        (testEntry "f2" 11)).1 = false ∧
      (((LRUCache.init 10).put "k1" (testEntry "f1" 4)).2.put "k2"
        (testEntry "f2" 11)).2.cache = [] ∧
      (((LRUCache.init 10).put "k1" (testEntry "f1" 4)).2.put "k2"
        (testEntry "f2" 11)).2.current_size_bytes = 0) :=
  claim_C1_amended _ "k2" (testEntry "f2" 11)
    ⟨by decide,
     (by decide : (((LRUCache.init 10).put "k1" (testEntry "f1" 4)).2).current_size_bytes =
        LRUCache.storedSize (((LRUCache.init 10).put "k1" (testEntry "f1" 4)).2).cache)⟩
    (by decide) (by decide)

/-- C5: in the concrete scenario (insert A, B, C of one byte each into a
3-byte cache, `get A`, then insert D forcing one eviction) the evicted
entry is B — the cache ends as C, A, D with exactly one eviction; in
general `get` moves the accessed key to the most-recently-used end and
`_evict_lru` removes the least-recently-used (front) entry. -/
theorem claim_C5_true_lru :
    (applyOps (LRUCache.init 3) lruScenarioOps).keys = ["C", "A", "D"] ∧
    (applyOps (LRUCache.init 3) lruScenarioOps).evictions = 1 ∧
    (∀ (c : LRUCache) (now : Int) (key : String) (e : CacheEntry),
      c.lookup key = some e → (c.get now key).2.keys.getLast? = some key) ∧
    (∀ c : LRUCache, c.cache ≠ [] → c.evictLRU.cache = c.cache.tail) := by
  refine ⟨by decide, by decide, ?_, fun c hc => LRUCache.evictLRU_cache_tail c hc⟩
  intro c now key e hl
  unfold LRUCache.get
  rw [hl]
  show (List.map Prod.fst (LRUCache.removeKey c.cache key ++ [(key, _)])).getLast? =
    some key
  rw [List.map_append]
  simp

/-- Witness for C5's general clauses at a concrete one-entry cache. -/
theorem claim_C5_true_lru_witness :
    ((((LRUCache.init 3).put "A" (testEntry "fA" 1)).2.get 0 "A").2.keys.getLast? =
      some "A") ∧
    ((((LRUCache.init 3).put "A" (testEntry "fA" 1)).2.evictLRU).cache =
      (((LRUCache.init 3).put "A" (testEntry "fA" 1)).2.cache.tail)) :=
  ⟨claim_C5_true_lru.2.2.1 _ 0 "A" (testEntry "fA" 1) (by decide),
   claim_C5_true_lru.2.2.2 _ (by decide)⟩

/-- C8: `calculate_rating_weight` is the neutral 0.5 for an absent or
nonpositive rating and `(r/5)^2 * rating_weight + 0.1` for a rating in
[1, 5]; for positive `rating_weight` the rating-5 factor strictly exceeds
the rating-1 factor. -/
theorem claim_C8_rating_weight (cfg : AlgorithmConfig) :
    WeightCalculator.calculate_rating_weight cfg none = 1 / 2 ∧
    (∀ r : Int, r ≤ 0 →
      WeightCalculator.calculate_rating_weight cfg (some r) = 1 / 2) ∧
    (∀ r : Int, 1 ≤ r → r ≤ 5 →
      WeightCalculator.calculate_rating_weight cfg (some r) =
        ((r : ℚ) / 5) ^ 2 * cfg.rating_weight + 1 / 10) ∧
    (0 < cfg.rating_weight →
      WeightCalculator.calculate_rating_weight cfg (some 1) <
        WeightCalculator.calculate_rating_weight cfg (some 5)) := by
  refine ⟨rfl, ?_, ?_, ?_⟩
  · intro r hr
    simp [WeightCalculator.calculate_rating_weight, if_pos hr]
  · intro r h1 h5
    have hr : ¬r ≤ 0 := by omega
    simp [WeightCalculator.calculate_rating_weight, hr]
  · intro hw
    simp only [WeightCalculator.calculate_rating_weight]
    rw [if_neg (by omega), if_neg (by omega)]
    push_cast
    nlinarith [hw]

/-- Witness for C8 at the default configuration. -/
theorem claim_C8_rating_weight_witness :
    WeightCalculator.calculate_rating_weight {} (some 0) = 1 / 2 ∧
    WeightCalculator.calculate_rating_weight {} (some 3) =
      ((3 : ℚ) / 5) ^ 2 * ({} : AlgorithmConfig).rating_weight + 1 / 10 ∧
    WeightCalculator.calculate_rating_weight {} (some 1) <
      WeightCalculator.calculate_rating_weight {} (some 5) := by
  refine ⟨(claim_C8_rating_weight {}).2.1 0 (by norm_num), ?_, ?_⟩
  · exact (claim_C8_rating_weight {}).2.2.1 3 (by norm_num) (by norm_num)
  · exact (claim_C8_rating_weight {}).2.2.2 (by norm_num)

/-- C10: the 150×150 thumbnail box is chosen only for the exact string
`thumbnails`; every other `size_type` — including the singular
`thumbnail` — is processed at the 600×600 detail box, and the cache file
path places the file under a subdirectory named after the given
`size_type` string. -/
theorem claim_C10_size_type_dispatch :
    targetSize "thumbnails" = (150, 150) ∧
    targetSize "thumbnail" = (600, 600) ∧
    (∀ s : String, s ≠ "thumbnails" → targetSize s = (600, 600)) ∧
    (∀ dir key s : String,
      cacheFilePath dir key s = dir ++ "/" ++ s ++ "/" ++ key ++ ".webp") := by
  refine ⟨rfl, rfl, ?_, fun dir key s => rfl⟩
  intro s hs
  simp [targetSize, MemoryOptimizedProcessor.DETAIL_SIZE, hs]

/-- Witness for C10 at the `detail` size class. -/
theorem claim_C10_size_type_dispatch_witness :
    targetSize "detail" = (600, 600) ∧
    cacheFilePath "cache" "k" "detail" =
      "cache" ++ "/" ++ "detail" ++ "/" ++ "k" ++ ".webp" :=
  ⟨claim_C10_size_type_dispatch.2.2.1 "detail" (by decide),
   claim_C10_size_type_dispatch.2.2.2 "cache" "k" "detail"⟩

/-! ## Lemmas about the selection engine -/

theorem le_pyMax_left (a b : ℚ) : a ≤ pyMax a b := by
  unfold pyMax
  split
  · exact le_refl a
  · linarith [lt_of_not_ge (by assumption : ¬a ≥ b)]

/-- C7: the floor invariant on `final_weight`.  A refresh over a non-empty
collection bulk-replaces the cache with rows whose `final_weight` is
`max(0.01, …)`, hence at least 0.01; a refresh over an empty collection
returns early and leaves the cache as it was, so the invariant is
preserved from the pre-state. -/
theorem claim_C7_weight_floor (env : MathEnv) (cfg : AlgorithmConfig)
    (clock : Clock) (st : RandomAlgorithmState)
    (hold : ∀ row ∈ st.intelligent_cache, 1 / 100 ≤ row.final_weight) :
    ∀ row ∈ (RandomAlgorithm.refreshSelectionCache env cfg clock
        st).intelligent_cache, 1 / 100 ≤ row.final_weight := by
  intro row hrow
  unfold RandomAlgorithm.refreshSelectionCache at hrow
  by_cases he : st.albums.isEmpty
  · rw [if_pos he] at hrow
    exact hold row hrow
  · rw [if_neg he] at hrow
    dsimp only at hrow
    rcases List.mem_map.mp hrow with ⟨p, hp, hrow_eq⟩
    have hget := List.mem_enum_iff_getElem?.mp hp
    have hp2 := List.getElem?_mem hget
    rcases List.mem_filterMap.mp hp2 with ⟨album, halb, hf⟩
    have hfw : 1 / 100 ≤ p.2.2.2.2.2.2 := by
      by_cases hrec : (st.history.get_recent_albums clock.sec
          cfg.min_time_between_repeats_hours).contains album.id
      · rw [if_pos hrec] at hf
        cases hf
      · rw [if_neg hrec] at hf
        injection hf with hf
        rw [← hf]
        exact le_pyMax_left _ _
    rw [← hrow_eq]
    exact hfw

theorem refresh_albums (env : MathEnv) (cfg : AlgorithmConfig) (clock : Clock)
    (st : RandomAlgorithmState) :
    (RandomAlgorithm.refreshSelectionCache env cfg clock st).albums = st.albums := by
  unfold RandomAlgorithm.refreshSelectionCache
  split <;> rfl

theorem ite_refresh_albums (env : MathEnv) (cfg : AlgorithmConfig) (clock : Clock)
    (st : RandomAlgorithmState) :
    (if clock.sec - st.last_cache_refresh > 3600
      then RandomAlgorithm.refreshSelectionCache env cfg clock st
      else st).albums = st.albums := by
  split
  · exact refresh_albums env cfg clock st
  · rfl

theorem finishSelection_fst (clock : Clock) (session_id : Option String)
    (album : SelectedAlbum) (st : RandomAlgorithmState) :
    (RandomAlgorithm.finishSelection clock session_id album st).1 = some album := by
  unfold RandomAlgorithm.finishSelection
  rfl

theorem weightedCandidates_nil (st : RandomAlgorithmState)
    (h : st.albums = []) : RandomAlgorithm.weightedCandidates st = [] := by
  unfold RandomAlgorithm.weightedCandidates
  rw [h]
  induction st.intelligent_cache.filter (fun row => 0 < row.final_weight) with
  | nil => rfl
  | cons row t ih => simp

/-- Witness for C7: the two-album refresh fixture satisfies the floor on
every row, starting from an empty (hence floor-satisfying) cache. -/
theorem claim_C7_weight_floor_witness :
    (∀ row ∈ stC2base.intelligent_cache, 1 / 100 ≤ row.final_weight) ∧
    (∀ row ∈ (RandomAlgorithm.refreshSelectionCache envTest {} (clockC2 1000)
        stC2base).intelligent_cache, 1 / 100 ≤ row.final_weight) :=
  ⟨by intro row hrow; simp [stC2base] at hrow,
   claim_C7_weight_floor envTest {} (clockC2 1000) stC2base
     (by intro row hrow; simp [stC2base] at hrow)⟩

/-- C3: `select_random_album` is total on non-empty collections: it returns
an album whenever the `albums` table is non-empty and `None` exactly when
it is empty (it never raises — totality of the embedding); when the
weighted cache yields no candidate it falls back to a uniform draw over the
entire unfiltered collection. -/
theorem claim_C3_selection_total (env : MathEnv) (cfg : AlgorithmConfig)
    (clock : Clock) (r : Nat) (session_id : Option String)
    (st : RandomAlgorithmState) :
    (st.albums ≠ [] →
      (RandomAlgorithm.selectRandomAlbum env cfg clock r session_id
        st).1.isSome = true) ∧
    (st.albums = [] →
      (RandomAlgorithm.selectRandomAlbum env cfg clock r session_id st).1 =
        none) ∧
    (¬clock.sec - st.last_cache_refresh > 3600 →
      RandomAlgorithm.weightedCandidates st = [] →
      (RandomAlgorithm.selectRandomAlbum env cfg clock r session_id
          st).1.map (fun s => s.album_id) =
        (st.albums.get? (r % st.albums.length)).map (fun a => a.id)) := by
  refine ⟨?_, ?_, ?_⟩
  · intro hne
    unfold RandomAlgorithm.selectRandomAlbum
    dsimp only
    split
    · rw [finishSelection_fst]
      rfl
    · split
      · rw [finishSelection_fst]
        rfl
      · exfalso
        rename_i halbget
        rw [ite_refresh_albums] at halbget
        have hlen : st.albums.length ≠ 0 :=
          fun h => hne (List.length_eq_zero.mp h)
        have hlt : r % st.albums.length < st.albums.length :=
          Nat.mod_lt r (Nat.pos_of_ne_zero hlen)
        have hge := List.get?_eq_none.mp halbget
        omega
  · intro hnil
    unfold RandomAlgorithm.selectRandomAlbum
    dsimp only
    split
    · exfalso
      rename_i p heq
      have hcnil : RandomAlgorithm.weightedCandidates
          (if clock.sec - st.last_cache_refresh > 3600
            then RandomAlgorithm.refreshSelectionCache env cfg clock st
            else st) = [] :=
        weightedCandidates_nil _ (by rw [ite_refresh_albums]; exact hnil)
      rw [hcnil] at heq
      simp at heq
    · split
      · exfalso
        rename_i a heq
        rw [ite_refresh_albums, hnil] at heq
        simp at heq
      · rfl
  · intro hno hcand
    unfold RandomAlgorithm.selectRandomAlbum
    dsimp only
    rw [if_neg hno, hcand]
    simp only [List.get?_nil]
    cases halbget : st.albums.get? (r % st.albums.length) with
    | none => rfl
    | some a =>
        dsimp only
        rw [finishSelection_fst]
        rfl

/-- Witness for C3 at the two-album fixture, an empty collection, and the
empty weighted cache. -/
theorem claim_C3_selection_total_witness :
    ((RandomAlgorithm.selectRandomAlbum envTest {} (clockC2 1001) 0 none
      stC2).1.isSome = true) ∧
    ((RandomAlgorithm.selectRandomAlbum envTest {} (clockC2 1001) 0 none
      { stC2base with albums := [] }).1 = none) ∧
    ((RandomAlgorithm.selectRandomAlbum envTest {} (clockC2 1000) 0 none
        stC2base).1.map (fun s => s.album_id) =
      (stC2base.albums.get? (0 % stC2base.albums.length)).map (fun a => a.id)) :=
  ⟨(claim_C3_selection_total envTest {} (clockC2 1001) 0 none stC2).1
      (by with_unfolding_all decide),
   (claim_C3_selection_total envTest {} (clockC2 1001) 0 none
      { stC2base with albums := [] }).2.1 rfl,
   (claim_C3_selection_total envTest {} (clockC2 1000) 0 none stC2base).2.2
      (by decide) rfl⟩

/-! ## Lemmas about the image-cache service -/

theorem not_mem_unlinkFile_self (fs : List String) (p : String) :
    p ∉ unlinkFile fs p := by
  intro hmem
  rcases List.mem_filter.mp hmem with ⟨_, hne⟩
  simp at hne

theorem get_fst_file_path (c : LRUCache) (now : Int) (key : String) :
    ∀ e2, (c.get now key).1 = some e2 →
      ∃ e, c.lookup key = some e ∧ e2.file_path = e.file_path := by
  unfold LRUCache.get
  cases hl : c.lookup key with
  | none => intro e2 h; cases h
  | some e =>
      intro e2 h
      injection h with h
      exact ⟨e, rfl, by rw [← h]⟩

theorem processAndCacheImage_download_failure (env : ImgEnv)
    (st : ImageCacheState) (url size_type : String) (resp : Response)
    (now : Int) (err : String) (hfail : downloadImage resp = .error err) :
    (processAndCacheImage env st url size_type resp now).1 = none ∧
    cacheFilePath st.cache_dir (generateCacheKey url size_type) size_type ∉
      (processAndCacheImage env st url size_type resp now).2.files := by
  unfold processAndCacheImage
  rw [hfail]
  exact ⟨rfl, not_mem_unlinkFile_self _ _⟩

/-- C9: when the download for a URL fails (404 or any status ≥ 400, a
network error, a non-image content type, or an oversized body) and the
image is not already served from the cache, `get_image` returns `None`
(totality of the embedding: no exception propagates) and no file for that
URL/size remains under the cache directory. -/
theorem claim_C9_download_failure (env : ImgEnv) (st : ImageCacheState)
    (url size_type : String) (resp : Response) (now : Int) (err : String)
    (hurl : url ≠ "")
    (hmiss : ∀ e, st.lru.lookup (generateCacheKey url size_type) = some e →
      e.file_path ∉ st.files)
    (hfail : downloadImage resp = .error err) :
    (getImage env st url size_type resp now).1 = none ∧
    cacheFilePath st.cache_dir (generateCacheKey url size_type) size_type ∉
      (getImage env st url size_type resp now).2.files := by
  unfold getImage
  rw [if_neg (by simp [hurl])]
  dsimp only
  cases hg : st.lru.get now (generateCacheKey url size_type) with
  | mk found lru =>
      cases hfound : found with
      | none =>
          dsimp only
          rcases processAndCacheImage_download_failure env
            { cache_dir := st.cache_dir, lru := lru, files := st.files }
            url size_type resp now err hfail with ⟨h1, h2⟩
          exact ⟨by rw [h1]; rfl, h2⟩
      | some entry =>
          dsimp only
          have hlk : (st.lru.get now (generateCacheKey url size_type)).1 =
              some entry := by rw [hg, hfound]
          rcases get_fst_file_path st.lru now (generateCacheKey url size_type)
            entry hlk with ⟨e, hle, hpath⟩
          have hnot : entry.file_path ∉ st.files := hpath ▸ hmiss e hle
          rw [if_neg (by simpa using hnot)]
          rcases processAndCacheImage_download_failure env
            { cache_dir := st.cache_dir, lru := lru, files := st.files }
            url size_type resp now err hfail with ⟨h1, h2⟩
          exact ⟨by rw [h1]; rfl, h2⟩

/-- Witness for C9: a 404 response for a fresh URL against the empty
service state. -/
theorem claim_C9_download_failure_witness :
    (getImage imgEnvTest imgStTest "u" "thumbnails" resp404 0).1 = none ∧
    cacheFilePath imgStTest.cache_dir (generateCacheKey "u" "thumbnails")
        "thumbnails" ∉
      (getImage imgEnvTest imgStTest "u" "thumbnails" resp404 0).2.files :=
  claim_C9_download_failure imgEnvTest imgStTest "u" "thumbnails" resp404 0
    "Download failed" (by decide)
    (fun e he => by
      rw [show imgStTest.lru.lookup (generateCacheKey "u" "thumbnails") =
        none from rfl] at he
      exact Option.noConfusion he)
    rfl

/-! ## Lemmas about feedback recording -/

theorem foldBest_spec (l : List SelRecord) :
    ∀ (acc : Option SelRecord) (t : SelRecord),
      l.foldl (fun acc r =>
        match acc with
        | none => some r
        | some b =>
            if b.selected_at < r.selected_at ∨
                (b.selected_at = r.selected_at ∧ b.id ≤ r.id)
            then some r else some b) acc = some t →
      (∀ r ∈ l, r.selected_at < t.selected_at ∨
          (r.selected_at = t.selected_at ∧ r.id ≤ t.id)) ∧
        (∀ b, acc = some b → b.selected_at < t.selected_at ∨
          (b.selected_at = t.selected_at ∧ b.id ≤ t.id)) ∧
        (t ∈ l ∨ acc = some t) := by
  induction l with
  | nil =>
      intro acc t h
      simp only [List.foldl_nil] at h
      refine ⟨by simp, ?_, Or.inr h⟩
      intro b hb
      rw [hb] at h
      injection h with h
      subst h
      omega
  | cons r rest ih =>
      intro acc t h
      rw [List.foldl_cons] at h
      rcases ih _ t h with ⟨hrest, hacc, hmem⟩
      have hstep : ∃ b1,
          (match acc with
            | none => some r
            | some b =>
                if b.selected_at < r.selected_at ∨
                    (b.selected_at = r.selected_at ∧ b.id ≤ r.id)
                then some r else some b) = some b1 ∧
          (b1 = r ∨ acc = some b1) ∧
          (r.selected_at < b1.selected_at ∨
            (r.selected_at = b1.selected_at ∧ r.id ≤ b1.id)) ∧
          (∀ a, acc = some a → a.selected_at < b1.selected_at ∨
            (a.selected_at = b1.selected_at ∧ a.id ≤ b1.id)) := by
        cases acc with
        | none =>
            exact ⟨r, rfl, Or.inl rfl, by omega, fun a ha => Option.noConfusion ha⟩
        | some a =>
            by_cases hcond : a.selected_at < r.selected_at ∨
                (a.selected_at = r.selected_at ∧ a.id ≤ r.id)
            · refine ⟨r, by dsimp only; rw [if_pos hcond], Or.inl rfl, by omega, ?_⟩
              intro a2 ha2
              injection ha2 with ha2
              subst ha2
              omega
            · refine ⟨a, by dsimp only; rw [if_neg hcond], Or.inr rfl, by omega, ?_⟩
              intro a2 ha2
              injection ha2 with ha2
              subst ha2
              omega
      rcases hstep with ⟨b1, hb1eq, hb1src, hrb1, haccb1⟩
      have hb1t : b1.selected_at < t.selected_at ∨
          (b1.selected_at = t.selected_at ∧ b1.id ≤ t.id) := hacc b1 hb1eq
      refine ⟨?_, ?_, ?_⟩
      · intro x hx
        rcases List.mem_cons.mp hx with rfl | hx2
        · omega
        · exact hrest x hx2
      · intro b hb
        have := haccb1 b hb
        omega
      · rcases hmem with hmt | hstept
        · exact Or.inl (List.mem_cons_of_mem r hmt)
        · rw [hb1eq] at hstept
          injection hstept with hstept
          subst hstept
          rcases hb1src with rfl | hsrc
          · exact Or.inl (List.mem_cons_self _ _)
          · exact Or.inr hsrc

/-- C6: `record_user_feedback` updates exactly the single most recent
selection-history row for the given album and session whose feedback is
still unset (most recent = greatest `selected_at`, ties broken towards the
later-inserted row), and leaves every other row unchanged; with no
matching row the table is untouched.  Row ids are assumed distinct (SQLite
primary keys). -/
theorem claim_C6_feedback_update (st : RandomAlgorithmState) (album_id : Int)
    (feedback : Int) (session_id : Option String)
    (hnd : (st.selection_history.map SelRecord.id).Nodup) :
    (RandomAlgorithm.mostRecentUnfed st.selection_history album_id
        (session_id.getD "anonymous") = none →
      RandomAlgorithm.recordUserFeedback st album_id feedback session_id = st) ∧
    (∀ target,
      RandomAlgorithm.mostRecentUnfed st.selection_history album_id
          (session_id.getD "anonymous") = some target →
      RandomAlgorithm.isUnfedMatch album_id (session_id.getD "anonymous")
          target = true ∧
      target ∈ st.selection_history ∧
      (∀ r ∈ st.selection_history,
        RandomAlgorithm.isUnfedMatch album_id (session_id.getD "anonymous")
            r = true →
          r.selected_at < target.selected_at ∨
            (r.selected_at = target.selected_at ∧ r.id ≤ target.id)) ∧
      ∃ i : Nat, st.selection_history.get? i = some target ∧
        (RandomAlgorithm.recordUserFeedback st album_id feedback
            session_id).selection_history.get? i =
          some { target with user_feedback := some feedback } ∧
        ∀ j : Nat, j ≠ i →
          (RandomAlgorithm.recordUserFeedback st album_id feedback
              session_id).selection_history.get? j =
            st.selection_history.get? j) := by
  refine ⟨?_, ?_⟩
  · intro hnone
    unfold RandomAlgorithm.recordUserFeedback
    dsimp only
    rw [hnone]
  · intro target htgt0
    have htgt := htgt0
    unfold RandomAlgorithm.mostRecentUnfed at htgt
    rcases foldBest_spec _ none target htgt with ⟨hmax, hacc2, hmemor⟩
    have hmem := hmemor.resolve_right (fun hacc => Option.noConfusion hacc)
    have htmem : target ∈ st.selection_history := List.mem_of_mem_filter hmem
    have htmatch := List.of_mem_filter hmem
    refine ⟨htmatch, htmem, ?_, ?_⟩
    · intro r hr hrm
      exact hmax r (List.mem_filter.mpr ⟨hr, hrm⟩)
    · rcases List.mem_iff_get?.mp htmem with ⟨i, hi⟩
      refine ⟨i, hi, ?_, ?_⟩
      · unfold RandomAlgorithm.recordUserFeedback
        dsimp only
        rw [htgt0]
        show (st.selection_history.map _).get? i = _
        rw [List.get?_map, hi]
        simp
      · intro j hj
        unfold RandomAlgorithm.recordUserFeedback
        dsimp only
        rw [htgt0]
        show (st.selection_history.map _).get? j = _
        rw [List.get?_map]
        cases hjv : st.selection_history.get? j with
        | none => rfl
        | some rj =>
            have hne : rj.id ≠ target.id := by
              intro heq
              apply hj
              have h1 : (st.selection_history.map SelRecord.id).get? j =
                  some target.id := by
                rw [List.get?_map, hjv]
                simp [heq]
              have h2 : (st.selection_history.map SelRecord.id).get? i =
                  some target.id := by
                rw [List.get?_map, hi]
                rfl
              rcases List.get?_eq_some.mp hjv with ⟨hjlt, _⟩
              have hjlt2 : j < (st.selection_history.map SelRecord.id).length := by
                rw [List.length_map]
                exact hjlt
              exact List.get?_inj hjlt2 hnd (h1.trans h2.symm)
            simp [hne]

/-- Witness for C6: a table with two unset rows for album 10; the later
row (id 2, selected at 7) is the one updated, the other untouched. -/
theorem claim_C6_feedback_update_witness :
    RandomAlgorithm.isUnfedMatch 10 "anonymous" recC6b = true ∧
    recC6b ∈ stC6.selection_history ∧
    (∀ r ∈ stC6.selection_history,
      RandomAlgorithm.isUnfedMatch 10 "anonymous" r = true →
        r.selected_at < recC6b.selected_at ∨
          (r.selected_at = recC6b.selected_at ∧ r.id ≤ recC6b.id)) ∧
    (∃ i : Nat, stC6.selection_history.get? i = some recC6b ∧
      (RandomAlgorithm.recordUserFeedback stC6 10 1
          none).selection_history.get? i =
        some { recC6b with user_feedback := some 1 } ∧
      ∀ j : Nat, j ≠ i →
        (RandomAlgorithm.recordUserFeedback stC6 10 1
            none).selection_history.get? j =
          stC6.selection_history.get? j) :=
  (claim_C6_feedback_update stC6 10 1 none (by decide)).2 recC6b (by decide)

/-- C2 counterexample: in a two-album collection, immediately after
`select_random_album` returns album 10 a second call — one second later,
far inside the default 24-hour window — can return album 10 again: the
weighted cache is unchanged between the calls, so nothing excludes the
just-selected album. -/
theorem claim_C2_counterexample :
    stC2.albums.length = 2 ∧
    selC2a.1.map (fun s => s.album_id) = some 10 ∧
    selC2b.1.map (fun s => s.album_id) = some 10 ∧
    ((1002 : Int) - 1001 <
      ({} : AlgorithmConfig).min_time_between_repeats_hours * 3600) := by
  with_unfolding_all decide

/-- C2 amended: repeat exclusion is enforced only at cache-refresh time: a
refresh over a non-empty collection skips every album whose id appears in
the history within the last `min_time_between_repeats_hours`, so no row
for such an album exists in the refreshed weighted cache.  Between
refreshes the weights are unchanged and an immediate repeat is possible
(see the counterexample). -/
theorem claim_C2_amended (env : MathEnv) (cfg : AlgorithmConfig)
    (clock : Clock) (st : RandomAlgorithmState) (aid : Int)
    (hne : ¬st.albums.isEmpty = true)
    (hrec : aid ∈ st.history.get_recent_albums clock.sec
      cfg.min_time_between_repeats_hours) :
    ∀ row ∈ (RandomAlgorithm.refreshSelectionCache env cfg clock
        st).intelligent_cache, row.album_id ≠ aid := by
  intro row hrow
  unfold RandomAlgorithm.refreshSelectionCache at hrow
  rw [if_neg hne] at hrow
  dsimp only at hrow
  rcases List.mem_map.mp hrow with ⟨p, hp, hrow_eq⟩
  have hget := List.mem_enum_iff_getElem?.mp hp
  have hp2 := List.getElem?_mem hget
  rcases List.mem_filterMap.mp hp2 with ⟨album, halb, hf⟩
  by_cases hc : (st.history.get_recent_albums clock.sec
      cfg.min_time_between_repeats_hours).contains album.id
  · rw [if_pos hc] at hf
    cases hf
  · rw [if_neg hc] at hf
    injection hf with hf
    rw [← hrow_eq]
    show p.2.1 ≠ aid
    rw [← hf]
    show album.id ≠ aid
    intro h
    apply hc
    rw [h]
    exact List.elem_iff.mpr hrec

/-- Witness for the amended C2: album 10 was selected at time 900, so the
refresh at time 1000 leaves no cache row for it. -/
theorem claim_C2_amended_witness :
    (¬stC2w.albums.isEmpty = true) ∧
    (10 ∈ stC2w.history.get_recent_albums (clockC2 1000).sec
      ({} : AlgorithmConfig).min_time_between_repeats_hours) ∧
    ∀ row ∈ (RandomAlgorithm.refreshSelectionCache envTest {} (clockC2 1000)
        stC2w).intelligent_cache, row.album_id ≠ 10 :=
  ⟨by decide, by decide,
   claim_C2_amended envTest {} (clockC2 1000) stC2w 10 (by decide) (by decide)⟩

end VinylVault
